import Mathlib

/-!
Verification of the telegram-trading-bot repository: a shallow embedding of
the signal extraction and validation logic of `signal_parser.py`, the
simplified extractor of `bot.py`, and the broker gateway of
`api_integration.py` (class CTraderIntegration), together with theorems
settling the spec's claims about them.

Modelling conventions:
  * Text is `List Char`; Python's `str.upper()` / `str.lower()` and the
    case-insensitive regex flag are modelled on the ASCII fragment
    (`pyUpperChar`, `pyLowerChar`), which is the alphabet the parsed labels
    and tokens live in.
  * The four regular expressions of the source are simple enough that their
    Python `re.search` semantics (leftmost match; at one position the
    alternatives and greedy repetitions as the backtracking engine resolves
    them) is embedded directly as total functions: `reSearch` scans start
    positions left to right, and each `...MatchAt` function decides a match
    anchored at one position.  The label alternations of the source are
    letterwise disjoint, and the character classes of the separators are
    disjoint from the digits and letters that follow, so no backtracking
    across these borders can occur and the greedy reading is exact.
  * Python floats are modelled as rationals (ℚ); every numeral the claims
    touch is exactly representable.
  * HTTP traffic is modelled by `HttpWorld`, fixing the outcome of the GET
    (account lookup) and the POST (order placement): an outcome is either a
    raised transport error or a status code with an optional parsed JSON
    body (`none` standing for a body on which `response.json()` raises).
    Functions that issue requests also return the list of requests issued,
    so that the absence of network traffic is a provable statement.
  * Mutation of the Python `signal` dict is modelled by state passing:
    `validate_signal` returns the boolean together with the dict as it is
    after the call.
-/

namespace TradingBot

/-! ### Characters: the ASCII fragment of Python case handling -/

/-- ASCII model of Python `str.upper()`, characterwise. -/
def pyUpperChar (c : Char) : Char :=
  if 97 ≤ c.toNat ∧ c.toNat ≤ 122 then Char.ofNat (c.toNat - 32) else c

/-- ASCII model of Python `str.lower()`, characterwise; used for the
case-insensitive (`re.I`) label comparisons. -/
def pyLowerChar (c : Char) : Char :=
  if 65 ≤ c.toNat ∧ c.toNat ≤ 90 then Char.ofNat (c.toNat + 32) else c

/-- The class `[A-Z]` under `re.I`, that is ASCII letters. -/
def isAlphaCh (c : Char) : Bool :=
  decide ((65 ≤ c.toNat ∧ c.toNat ≤ 90) ∨ (97 ≤ c.toNat ∧ c.toNat ≤ 122))

/-- The class `\d` (ASCII digits). -/
def isDigitCh (c : Char) : Bool :=
  decide (48 ≤ c.toNat ∧ c.toNat ≤ 57)

/-- The class `\s` on ASCII: space, tab, newline, return, vertical tab,
form feed. -/
def isSpaceCh (c : Char) : Bool :=
  decide (c = ' ' ∨ c = '\t' ∨ c = '\n' ∨ c = '\r' ∨ c = '\x0b' ∨ c = '\x0c')

/-- The class `[:\s]` separating a label from its number. -/
def isSepCh (c : Char) : Bool := decide (c = ':') || isSpaceCh c

/-! ### Substring containment (Python `in` on strings) -/

/-- Whether `pat` is a prefix of `s` (position-0 containment test). -/
def startsWith (pat s : List Char) : Bool := decide (s.take pat.length = pat)

/-- Python `pat in s` for strings: `pat` occurs as a contiguous substring. -/
def containsTok (pat : List Char) : List Char → Bool
  | [] => pat.isEmpty
  | c :: rest => startsWith pat (c :: rest) || containsTok pat rest

/-! ### `re.search`: leftmost match of an anchored matcher -/

/-- `re.search` semantics: try the anchored matcher `m` at each start
position left to right and return the first result.  (All matchers embedded
here need at least one character, so the final empty position never
matches and is not scanned.) -/
def reSearch {α : Type} (m : List Char → Option α) : List Char → Option α
  | [] => none
  | c :: rest =>
    match m (c :: rest) with
    | some v => some v
    | none => reSearch m rest

/-! ### The anchored matchers of the source's four regular expressions -/

/-- Match the literal word `pat` case-insensitively at the head of `s`
(`re.I`), returning the rest of `s`. -/
def dropLabel (pat s : List Char) : Option (List Char) :=
  if (s.take pat.length).map pyLowerChar = pat then some (s.drop pat.length) else none

/-- Match `w1` then `\s*` then `w2` case-insensitively at the head of `s`
(the two-word labels `stop\s*loss` and `take\s*profit`). -/
def dropLabel2 (w1 w2 s : List Char) : Option (List Char) :=
  match dropLabel w1 s with
  | some r => dropLabel w2 (r.dropWhile isSpaceCh)
  | none => none

/-- Value of a digit string, most significant first. -/
def digitsVal (l : List Char) : Nat := l.foldl (fun a c => 10 * a + (c.toNat - 48)) 0

/-- Python `float` of a captured number, given as integer-part digits and
fractional-part digits (the fractional part may be empty, as in `"5."`). -/
def ratOfParts (p : List Char × List Char) : ℚ :=
  (digitsVal p.1 : ℚ) + (digitsVal p.2 : ℚ) / (10 : ℚ) ^ p.2.length

/-- The capture `(\d+\.?\d+)` anchored at `s`, as its backtracking engine
resolves it: a maximal digit run, optionally extended by a point and a
second maximal digit run; with no fractional digits the first run must hold
at least two digits (the first `\d+` cedes its last digit to the second). -/
def numTwo (s : List Char) : Option (List Char × List Char) :=
  let d1 := s.takeWhile isDigitCh
  let r := s.dropWhile isDigitCh
  if d1.isEmpty then none
  else
    match r with
    | '.' :: r2 =>
      let d2 := r2.takeWhile isDigitCh
      if d2.isEmpty then (if 2 ≤ d1.length then some (d1, []) else none) else some (d1, d2)
    | _ => if 2 ≤ d1.length then some (d1, []) else none

/-- The capture `(\d+\.?\d*)` anchored at `s`: a maximal digit run,
optionally a point and a (possibly empty) second digit run.  The trailing
`%?` of the risk pattern captures nothing and cannot fail. -/
def numOne (s : List Char) : Option (List Char × List Char) :=
  let d1 := s.takeWhile isDigitCh
  let r := s.dropWhile isDigitCh
  if d1.isEmpty then none
  else
    match r with
    | '.' :: r2 => some (d1, r2.takeWhile isDigitCh)
    | _ => some (d1, [])

/-- The label alternation `(?:sl|stop\s*loss)` anchored at `s`. -/
def slLabel (s : List Char) : Option (List Char) :=
  (dropLabel "sl".data s) <|> dropLabel2 "stop".data "loss".data s

/-- The label alternation `(?:tp|take\s*profit)` anchored at `s`. -/
def tpLabel (s : List Char) : Option (List Char) :=
  (dropLabel "tp".data s) <|> dropLabel2 "take".data "profit".data s

/-- The label `risk` anchored at `s`. -/
def riskLabel (s : List Char) : Option (List Char) := dropLabel "risk".data s

/-- The label alternation `(?:symbol|pair|asset)` anchored at `s`. -/
def symLabel (s : List Char) : Option (List Char) :=
  (dropLabel "symbol".data s) <|> (dropLabel "pair".data s) <|> dropLabel "asset".data s

/-- A label followed by `[:\s]*` and a number capture, anchored at `s`. -/
def labelNum (lbl : List Char → Option (List Char))
    (num : List Char → Option (List Char × List Char)) (s : List Char) :
    Option (List Char × List Char) :=
  match lbl s with
  | some r => num (r.dropWhile isSepCh)
  | none => none

/-- Anchored matcher of `(?:sl|stop\s*loss)[:\s]*(\d+\.?\d+)`. -/
def slMatchAt : List Char → Option (List Char × List Char) := labelNum slLabel numTwo

/-- Anchored matcher of `(?:tp|take\s*profit)[:\s]*(\d+\.?\d+)`. -/
def tpMatchAt : List Char → Option (List Char × List Char) := labelNum tpLabel numTwo

/-- Anchored matcher of `risk[:\s]*(\d+\.?\d*)%?`. -/
def riskMatchAt : List Char → Option (List Char × List Char) := labelNum riskLabel numOne

/-- Anchored matcher of `(?:symbol|pair|asset)[:\s]*([A-Z]{3,10})` under
`re.I`: after the label and separators, a run of at least three letters,
of which the greedy `{3,10}` takes at most ten. -/
def symMatchAt (s : List Char) : Option (List Char) :=
  match symLabel s with
  | some r =>
    let letters := (r.dropWhile isSepCh).takeWhile isAlphaCh
    if 3 ≤ letters.length then some (letters.take 10) else none
  | none => none

/-! ### Data model -/

/-- Trade direction strings `"BUY"` / `"SELL"`. -/
inductive TradeAction where
  | buy
  | sell
  deriving DecidableEq

/-- The signal dict built by `SignalParser.parse_gemini_response`
(signal_parser.py lines 26-33).  `none` is Python `None`. -/
structure Signal where
  valid : Bool
  action : Option TradeAction
  risk_percent : ℚ
  stop_loss : Option ℚ
  take_profit : Option ℚ
  symbol : Option (List Char)
  deriving DecidableEq

/-- The configuration document (config.json) as the embedded functions read
it: `bot_settings.default_risk_percent`, `bot_settings.max_risk_percent`,
`risk_management.min_risk_reward_ratio`, `broker.account_id`. -/
structure Config where
  default_risk_percent : ℚ
  max_risk_percent : ℚ
  min_risk_reward_ratio : ℚ
  account_id : Nat
  deriving DecidableEq

/-! ### `SignalParser.validate_signal` (signal_parser.py lines 70-93) -/

/-- Python truthiness of an optional float (`None` and `0.0` are falsy). -/
def pyTruthyRat : Option ℚ → Bool
  | none => false
  | some v => decide (v ≠ 0)

/-- `validate_signal`: the loop over `required_fields = ["action",
"stop_loss", "take_profit"]` returns `False` at the first field that is
`None`; otherwise the risk-reward block only binds `min_rr` from the
configuration (no computation follows it, line 91 of the source is a
comment) and the function returns `True`.  The second component is the
signal dict as it stands after the call (the body never assigns into it). -/
def validate_signal (config : Config) (signal : Signal) : Bool × Signal :=
  if signal.action = none then (false, signal)
  else if signal.stop_loss = none then (false, signal)
  else if signal.take_profit = none then (false, signal)
  else
    let _min_rr : Option ℚ :=
      if signal.action.isSome && pyTruthyRat signal.stop_loss
          && pyTruthyRat signal.take_profit then
        some config.min_risk_reward_ratio
      else none
    (true, signal)

/-! ### `SignalParser.parse_gemini_response` (signal_parser.py lines 14-68) -/

/-- The extractor: defaults, then action by substring test on the uppercased
text, then the symbol, risk, stop-loss and take-profit regex searches in
source order, then `valid` recomputed by `validate_signal`. -/
def parse_gemini_response (config : Config) (text : List Char) : Signal :=
  let signal0 : Signal :=
    { valid := false
      action := none
      risk_percent := config.default_risk_percent
      stop_loss := none
      take_profit := none
      symbol := none }
  let text_upper := text.map pyUpperChar
  let s1 :=
    if containsTok "BUY".data text_upper then { signal0 with action := some .buy }
    else if containsTok "SELL".data text_upper then { signal0 with action := some .sell }
    else signal0
  let s2 :=
    match reSearch symMatchAt text with
    | some letters => { s1 with symbol := some (letters.map pyUpperChar) }
    | none => s1
  let s3 :=
    match reSearch riskMatchAt text with
    | some parts =>
      { s2 with risk_percent := min (ratOfParts parts) config.max_risk_percent }
    | none => s2
  let s4 :=
    match reSearch slMatchAt text with
    | some parts => { s3 with stop_loss := some (ratOfParts parts) }
    | none => s3
  let s5 :=
    match reSearch tpMatchAt text with
    | some parts => { s4 with take_profit := some (ratOfParts parts) }
    | none => s4
  { s5 with valid := (validate_signal config s5).1 }

/-! ### `parse_signal` of the standalone bot.py (lines 22-51) -/

/-- The signal dict of bot.py: no `valid` and no `symbol` field, the risk
default hard-coded to `1.0`. -/
structure BotSignal where
  action : Option TradeAction
  risk_percent : ℚ
  stop_loss : Option ℚ
  take_profit : Option ℚ
  deriving DecidableEq

/-- bot.py `parse_signal`: same action test and regex searches, but the
matched risk value is stored without any cap (line 41 of bot.py). -/
def bot_parse_signal (text : List Char) : BotSignal :=
  let signal0 : BotSignal :=
    { action := none, risk_percent := 1, stop_loss := none, take_profit := none }
  let text_upper := text.map pyUpperChar
  let s1 :=
    if containsTok "BUY".data text_upper then { signal0 with action := some .buy }
    else if containsTok "SELL".data text_upper then { signal0 with action := some .sell }
    else signal0
  let s2 :=
    match reSearch riskMatchAt text with
    | some parts => { s1 with risk_percent := ratOfParts parts }
    | none => s1
  let s3 :=
    match reSearch slMatchAt text with
    | some parts => { s2 with stop_loss := some (ratOfParts parts) }
    | none => s2
  match reSearch tpMatchAt text with
  | some parts => { s3 with take_profit := some (ratOfParts parts) }
  | none => s3

/-! ### Broker gateway: `CTraderIntegration` (api_integration.py) -/

/-- The JSON body of a broker response, restricted to the fields the code
reads: `data.get('balance', 0)` and `result.get('orderId', 'N/A')`. -/
structure BrokerJson where
  balance : Option ℚ
  orderId : Option (List Char)
  deriving DecidableEq

/-- Outcome of one HTTP request: a raised transport error, or a response
with a status code and an optional parsed JSON body (`none` models a body
on which `response.json()` raises). -/
inductive HttpOutcome where
  | raise
  | resp (status : Nat) (json : Option BrokerJson)
  deriving DecidableEq

/-- The network environment of one `execute_trade` call: the outcome the
broker would give the account GET and the order POST. -/
structure HttpWorld where
  accountGet : HttpOutcome
  orderPost : HttpOutcome
  deriving DecidableEq

/-- The fallback balance of `get_account_balance`, the literal `10000.0`
of api_integration.py lines 167, 186 and 190 ("Default test balance"). -/
def default_test_balance : ℚ := 10000

/-- The `try` body of `get_account_balance` (api_integration.py lines
165-186): `.error` marks a raised exception reaching the `except` clause. -/
def get_account_balance_body (conn : Bool) (w : HttpWorld) : Except Unit ℚ :=
  if !conn then .ok default_test_balance
  else
    match w.accountGet with
    | .raise => .error ()
    | .resp status json =>
      if status = 200 then
        match json with
        | none => .error ()
        | some data => .ok (data.balance.getD 0)
      else .ok default_test_balance

/-- `get_account_balance` (api_integration.py lines 163-190): the body with
its `except` clause returning the fallback.  `config` mirrors
`self.config`; the body never reads it. -/
def get_account_balance (config : Config) (conn : Bool) (w : HttpWorld) : ℚ :=
  match get_account_balance_body conn w with
  | .ok v => v
  | .error _ => default_test_balance

/-- Python `int()` on a float: truncation toward zero. -/
def pyInt (q : ℚ) : ℤ := if 0 ≤ q then ⌊q⌋ else ⌈q⌉

/-- The arithmetic of `calculate_lot_size` (api_integration.py lines
147-158): `risk_amount = balance * (risk_percent / 100)`, `volume =
int(risk_amount * 10)`, `volume = max(volume, 1000)`.  The factor `10` and
the minimum `1000` are the literals of lines 157-158. -/
def lot_volume (balance risk_percent : ℚ) : ℤ :=
  let risk_amount := balance * (risk_percent / 100)
  max (pyInt (risk_amount * 10)) 1000

/-- `calculate_lot_size` (api_integration.py lines 137-161): fetches the
balance, then applies the hard-coded formula. -/
def calculate_lot_size (config : Config) (conn : Bool) (w : HttpWorld)
    (risk_percent : ℚ) : ℤ :=
  lot_volume (get_account_balance config conn w) risk_percent

/-- The order payload of `execute_trade` (api_integration.py lines 98-107),
restricted to the order-determining fields. -/
structure OrderPayload where
  accountId : Nat
  symbolName : List Char
  tradeSide : TradeAction
  volume : ℤ
  stopLoss : Option ℚ
  takeProfit : Option ℚ
  deriving DecidableEq

/-- A network request issued by the gateway, in order of issue. -/
inductive ApiRequest where
  | acctGet
  | orderReq (payload : OrderPayload)
  deriving DecidableEq

/-- Python `signal["symbol"] or "XAUUSD"`: `None` and the empty string are
falsy and select the default. -/
def pyOrSym : Option (List Char) → List Char → List Char
  | some s, d => if s.isEmpty then d else s
  | none, d => d

/-- `execute_trade` (api_integration.py lines 76-135): refuse on an invalid
signal, then refuse when not connected, both before any request; otherwise
compute the volume (which issues the balance GET), build the payload, POST
the order, and succeed exactly on a 200/201 response whose body parses.
The second component lists the requests issued. -/
def execute_trade (config : Config) (conn : Bool) (signal : Signal)
    (w : HttpWorld) : Bool × List ApiRequest :=
  if !signal.valid then (false, [])
  else if !conn then (false, [])
  else
    let volume := calculate_lot_size config conn w signal.risk_percent
    let payload : OrderPayload :=
      { accountId := config.account_id
        symbolName := pyOrSym signal.symbol "XAUUSD".data
        tradeSide := if signal.action = some .buy then .buy else .sell
        volume := volume
        stopLoss := signal.stop_loss
        takeProfit := signal.take_profit }
    let trace := [ApiRequest.acctGet, ApiRequest.orderReq payload]
    match w.orderPost with
    | .raise => (false, trace)
    | .resp status json =>
      if status = 200 ∨ status = 201 then
        match json with
        | none => (false, trace)
        | some _ => (true, trace)
      else (false, trace)

/-! ### Helper lemmas: normal forms of the embedded functions -/

/-- The action computed by both extractors from the uppercased text. -/
def actionOf (text : List Char) : Option TradeAction :=
  if containsTok "BUY".data (text.map pyUpperChar) then some .buy
  else if containsTok "SELL".data (text.map pyUpperChar) then some .sell
  else none

theorem validate_signal_fst (config : Config) (s : Signal) :
    (validate_signal config s).1
      = (s.action.isSome && s.stop_loss.isSome && s.take_profit.isSome) := by
  rcases s with ⟨v, a, rp, sl, tp, sy⟩
  rcases a with _ | a <;> rcases sl with _ | sl <;> rcases tp with _ | tp <;>
    simp [validate_signal]

theorem validate_signal_snd (config : Config) (s : Signal) :
    (validate_signal config s).2 = s := by
  rcases s with ⟨v, a, rp, sl, tp, sy⟩
  rcases a with _ | a <;> rcases sl with _ | sl <;> rcases tp with _ | tp <;>
    simp [validate_signal]

/-- Fieldwise normal form of the extractor. -/
theorem parse_gemini_response_eq (config : Config) (text : List Char) :
    parse_gemini_response config text =
      { valid := (actionOf text).isSome && (reSearch slMatchAt text).isSome
          && (reSearch tpMatchAt text).isSome
        action := actionOf text
        risk_percent :=
          (reSearch riskMatchAt text).elim config.default_risk_percent
            (fun parts => min (ratOfParts parts) config.max_risk_percent)
        stop_loss := (reSearch slMatchAt text).map ratOfParts
        take_profit := (reSearch tpMatchAt text).map ratOfParts
        symbol := (reSearch symMatchAt text).map (List.map pyUpperChar) } := by
  unfold parse_gemini_response actionOf
  cases hb : containsTok "BUY".data (text.map pyUpperChar) <;>
    cases hs : containsTok "SELL".data (text.map pyUpperChar) <;>
    cases h1 : reSearch symMatchAt text <;>
    cases h2 : reSearch riskMatchAt text <;>
    cases h3 : reSearch slMatchAt text <;>
    cases h4 : reSearch tpMatchAt text <;>
    simp [validate_signal, hb, hs]

/-- Fieldwise normal form of the bot.py extractor. -/
theorem bot_parse_signal_eq (text : List Char) :
    bot_parse_signal text =
      { action := actionOf text
        risk_percent := (reSearch riskMatchAt text).elim 1 ratOfParts
        stop_loss := (reSearch slMatchAt text).map ratOfParts
        take_profit := (reSearch tpMatchAt text).map ratOfParts } := by
  unfold bot_parse_signal actionOf
  cases hb : containsTok "BUY".data (text.map pyUpperChar) <;>
    cases hs : containsTok "SELL".data (text.map pyUpperChar) <;>
    cases h2 : reSearch riskMatchAt text <;>
    cases h3 : reSearch slMatchAt text <;>
    cases h4 : reSearch tpMatchAt text <;>
    simp [hb, hs]

/-! ### Helper lemmas: the leftmost-search recursion -/

theorem reSearch_eq_none_iff {α : Type} (m : List Char → Option α) :
    ∀ s : List Char, reSearch m s = none ↔ ∀ i < s.length, m (s.drop i) = none := by
  intro s
  induction s with
  | nil => simp [reSearch]
  | cons c rest ih =>
    rw [reSearch]
    cases h : m (c :: rest) with
    | some v =>
      simp only [reduceCtorEq, false_iff, not_forall]
      exact ⟨0, by simp, by simp [h]⟩
    | none =>
      rw [ih]
      constructor
      · intro hall i hi
        match i with
        | 0 => simpa using h
        | j + 1 =>
          have := hall j (by simpa using hi)
          simpa using this
      · intro hall j hj
        have := hall (j + 1) (by simpa using hj)
        simpa using this

theorem reSearch_eq_some_iff {α : Type} (m : List Char → Option α) (v : α) :
    ∀ s : List Char, reSearch m s = some v ↔
      ∃ i, i < s.length ∧ m (s.drop i) = some v ∧ ∀ j < i, m (s.drop j) = none := by
  intro s
  induction s with
  | nil => simp [reSearch]
  | cons c rest ih =>
    rw [reSearch]
    cases h : m (c :: rest) with
    | some w =>
      constructor
      · intro hv
        refine ⟨0, by simp, by simpa [h] using hv, by simp⟩
      · rintro ⟨i, hi, hm, hnone⟩
        match i with
        | 0 => simpa [h] using hm
        | j + 1 =>
          have h0 := hnone 0 (by omega)
          simp [h] at h0
    | none =>
      rw [ih]
      constructor
      · rintro ⟨i, hi, hm, hnone⟩
        refine ⟨i + 1, by simpa using hi, by simpa using hm, ?_⟩
        intro j hj
        match j with
        | 0 => simpa using h
        | k + 1 => simpa using hnone k (by omega)
      · rintro ⟨i, hi, hm, hnone⟩
        match i with
        | 0 => simp_all
        | j + 1 =>
          refine ⟨j, by simpa using hi, by simpa using hm, ?_⟩
          intro k hk
          have := hnone (k + 1) (by omega)
          simpa using this

/-! ### Helper lemmas: substring containment -/

theorem containsTok_nil (s : List Char) : containsTok [] s = true := by
  cases s <;> simp [containsTok, startsWith]

theorem containsTok_of_append (p a b : List Char) :
    containsTok p (a ++ p ++ b) = true := by
  induction a with
  | nil =>
    cases p with
    | nil => simpa using containsTok_nil b
    | cons q qs =>
      simp only [List.nil_append, List.cons_append, containsTok, Bool.or_eq_true]
      left
      exact decide_eq_true (List.take_left (q :: qs) b)
  | cons c a ih =>
    simp only [List.cons_append, containsTok, Bool.or_eq_true]
    right
    exact ih

theorem exists_of_containsTok (p : List Char) :
    ∀ s : List Char, containsTok p s = true → ∃ a b, s = a ++ p ++ b := by
  intro s
  induction s with
  | nil =>
    intro h
    simp only [containsTok, List.isEmpty_iff] at h
    exact ⟨[], [], by simp [h]⟩
  | cons c rest ih =>
    intro h
    rcases Bool.or_eq_true _ _ |>.mp h with h1 | h2
    · refine ⟨[], (c :: rest).drop p.length, ?_⟩
      have := of_decide_eq_true h1
      conv_lhs => rw [← List.take_append_drop p.length (c :: rest)]
      rw [this, List.nil_append]
    · obtain ⟨a, b, hab⟩ := ih h2
      exact ⟨c :: a, b, by simp [hab]⟩

theorem map_eq_append_decomp (f : Char → Char) :
    ∀ (x : List Char) {t y : List Char}, t.map f = x ++ y →
      ∃ t1 t2, t = t1 ++ t2 ∧ t1.map f = x ∧ t2.map f = y := by
  intro x
  induction x with
  | nil => exact fun {t y} h => ⟨[], t, rfl, rfl, by simpa using h⟩
  | cons a x ih =>
    intro t y h
    cases t with
    | nil => simp at h
    | cons c t' =>
      simp only [List.map_cons, List.cons_append, List.cons.injEq] at h
      obtain ⟨t1, t2, rfl, h1, h2⟩ := ih h.2
      exact ⟨c :: t1, t2, rfl, by simp [h.1, h1], h2⟩

/-- `pat` occurs in `map f s` exactly when some segment of `s` is mapped
onto `pat` by `f`. -/
theorem containsTok_map_iff (f : Char → Char) (p s : List Char) :
    containsTok p (s.map f) = true ↔
      ∃ a w b, s = a ++ w ++ b ∧ w.map f = p := by
  constructor
  · intro h
    obtain ⟨x, y, hxy⟩ := exists_of_containsTok p (s.map f) h
    obtain ⟨a, t2, rfl, hx, ht2⟩ := map_eq_append_decomp f x (by simpa using hxy)
    obtain ⟨w, b, rfl, hw, hb⟩ := map_eq_append_decomp f p ht2
    exact ⟨a, w, b, by simp, hw⟩
  · rintro ⟨a, w, b, rfl, hw⟩
    have : (a ++ w ++ b).map f = a.map f ++ p ++ b.map f := by simp [hw]
    rw [this]
    exact containsTok_of_append p (a.map f) (b.map f)

/-! ### Helper lemmas: characters and the symbol matcher -/

theorem toNat_ofNat_small (m : Nat) (h : m < 55296) : (Char.ofNat m).toNat = m := by
  have hv : m.isValidChar := Or.inl h
  rw [Char.ofNat, dif_pos hv]
  simp [Char.ofNatAux, Char.toNat, UInt32.toNat, BitVec.ofNatLt]

/-- On an ASCII letter, `pyUpperChar` yields an uppercase ASCII letter. -/
theorem pyUpperChar_of_alpha {c : Char} (h : isAlphaCh c = true) :
    65 ≤ (pyUpperChar c).toNat ∧ (pyUpperChar c).toNat ≤ 90 := by
  simp only [isAlphaCh, decide_eq_true_eq] at h
  unfold pyUpperChar
  rcases h with h1 | h2
  · rw [if_neg (by omega)]
    exact h1
  · rw [if_pos h2, toNat_ofNat_small _ (by omega)]
    omega

/-- Any output of the anchored symbol matcher is a run of three to ten
ASCII letters. -/
theorem symMatchAt_spec {s u : List Char} (h : symMatchAt s = some u) :
    3 ≤ u.length ∧ u.length ≤ 10 ∧ ∀ c ∈ u, isAlphaCh c = true := by
  unfold symMatchAt at h
  cases hl : symLabel s with
  | none => rw [hl] at h; exact absurd h (by simp)
  | some r =>
    rw [hl] at h
    simp only at h
    set letters := (r.dropWhile isSepCh).takeWhile isAlphaCh with hlet
    by_cases h3 : 3 ≤ letters.length
    · rw [if_pos h3] at h
      obtain rfl : letters.take 10 = u := by simpa using h
      refine ⟨?_, ?_, ?_⟩
      · rw [List.length_take]; omega
      · rw [List.length_take]; omega
      · intro c hc
        exact List.mem_takeWhile_imp (List.mem_of_mem_take hc)
    · rw [if_neg h3] at h
      exact absurd h (by simp)

/-- Any symbol found by the leftmost search is a run of three to ten ASCII
letters. -/
theorem reSearch_symMatchAt_spec {t u : List Char}
    (h : reSearch symMatchAt t = some u) :
    3 ≤ u.length ∧ u.length ≤ 10 ∧ ∀ c ∈ u, isAlphaCh c = true := by
  obtain ⟨i, _, hm, _⟩ := (reSearch_eq_some_iff symMatchAt u t).mp h
  exact symMatchAt_spec hm

/-! ### Concrete fixtures used by witnesses and counterexamples -/

/-- A configuration mirroring a typical config.json: default risk 1.0,
maximum risk 2.0, minimum risk-reward ratio 1.5, account id 1. -/
def cfg12 : Config :=
  { default_risk_percent := 1, max_risk_percent := 2,
    min_risk_reward_ratio := 3 / 2, account_id := 1 }

/-- A configuration whose default risk percent (5.0) exceeds its maximum
risk percent (2.0); nothing in the code rules this out. -/
def cfg52 : Config :=
  { default_risk_percent := 5, max_risk_percent := 2,
    min_risk_reward_ratio := 3 / 2, account_id := 1 }

/-- A valid signal as the extractor would produce for a complete message. -/
def sigValid : Signal :=
  { valid := true, action := some .buy, risk_percent := 1,
    stop_loss := some 1900, take_profit := some 1950, symbol := none }

/-- A parsed JSON body carrying none of the fields the code reads. -/
def bodyEmpty : BrokerJson := { balance := none, orderId := none }

/-- A world in which every request raises a transport error. -/
def wRaise : HttpWorld := { accountGet := .raise, orderPost := .raise }

/-- A world in which the order POST gets status 204 No Content: inside the
2xx range, but not one of the two statuses the code accepts. -/
def w204 : HttpWorld :=
  { accountGet := .resp 200 (some { balance := some 10000, orderId := none })
    orderPost := .resp 204 (some bodyEmpty) }

/-- A world in which the order POST gets status 201 with a parsable body. -/
def w201 : HttpWorld :=
  { accountGet := .resp 200 (some { balance := some 10000, orderId := none })
    orderPost := .resp 201 (some bodyEmpty) }

/-! ### The claims -/

/-- Claim C1: for every signal record the extractor produces, the valid
flag returned by `validate_signal` is true exactly when action, stop loss
and take profit are all present, and the configuration handed to the
validator — in particular its minimum risk-reward ratio — has no effect on
the result. -/
theorem C1_validate_signal_required_fields (cfg cfgv cfgv' : Config) (text : List Char) :
    ((validate_signal cfgv (parse_gemini_response cfg text)).1 = true ↔
      (parse_gemini_response cfg text).action ≠ none
        ∧ (parse_gemini_response cfg text).stop_loss ≠ none
        ∧ (parse_gemini_response cfg text).take_profit ≠ none)
    ∧ (validate_signal cfgv (parse_gemini_response cfg text)).1
        = (validate_signal cfgv' (parse_gemini_response cfg text)).1 := by
  constructor
  · rw [validate_signal_fst]
    simp [Option.isSome_iff_ne_none, and_assoc]
  · rw [validate_signal_fst, validate_signal_fst]

/-- Claim C2: the extracted action is BUY when the case-normalized text
contains "BUY", else SELL when it contains "SELL", else unset; containment
of "BUY" in any letter case forces BUY even when "SELL" also occurs, and
containment of "SELL" in any letter case with no any-case "BUY" forces
SELL. -/
theorem C2_action_extraction (cfg : Config) (t : List Char) :
    (containsTok "BUY".data (t.map pyUpperChar) = true →
      (parse_gemini_response cfg t).action = some TradeAction.buy)
    ∧ (containsTok "BUY".data (t.map pyUpperChar) = false →
        containsTok "SELL".data (t.map pyUpperChar) = true →
        (parse_gemini_response cfg t).action = some TradeAction.sell)
    ∧ (containsTok "BUY".data (t.map pyUpperChar) = false →
        containsTok "SELL".data (t.map pyUpperChar) = false →
        (parse_gemini_response cfg t).action = none)
    ∧ (∀ a w b, t = a ++ w ++ b → w.map pyUpperChar = "BUY".data →
        (parse_gemini_response cfg t).action = some TradeAction.buy)
    ∧ ((∃ a w b, t = a ++ w ++ b ∧ w.map pyUpperChar = "SELL".data) →
        (¬ ∃ a w b, t = a ++ w ++ b ∧ w.map pyUpperChar = "BUY".data) →
        (parse_gemini_response cfg t).action = some TradeAction.sell) := by
  have hact : (parse_gemini_response cfg t).action = actionOf t := by
    rw [parse_gemini_response_eq]
  refine ⟨?_, ?_, ?_, ?_, ?_⟩
  · intro hb
    rw [hact, actionOf, if_pos hb]
  · intro hb hs
    rw [hact, actionOf, if_neg (by simp [hb]), if_pos hs]
  · intro hb hs
    rw [hact, actionOf, if_neg (by simp [hb]), if_neg (by simp [hs])]
  · intro a w b hdec hw
    have hb : containsTok "BUY".data (t.map pyUpperChar) = true :=
      (containsTok_map_iff pyUpperChar "BUY".data t).mpr ⟨a, w, b, hdec, hw⟩
    rw [hact, actionOf, if_pos hb]
  · intro hsell hnb
    have hs : containsTok "SELL".data (t.map pyUpperChar) = true :=
      (containsTok_map_iff pyUpperChar "SELL".data t).mpr
        (by obtain ⟨a, w, b, hdec, hw⟩ := hsell; exact ⟨a, w, b, hdec, hw⟩)
    have hb : containsTok "BUY".data (t.map pyUpperChar) = false := by
      rcases hcb : containsTok "BUY".data (t.map pyUpperChar) with _ | _
      · rfl
      · exact absurd ((containsTok_map_iff pyUpperChar "BUY".data t).mp hcb) hnb
    rw [hact, actionOf, if_neg (by simp [hb]), if_pos hs]

/-- Claim C10: `validate_signal` never modifies its input: the signal dict
after the call equals the one before, fieldwise; in particular the
validator leaves `risk_percent` untouched (it applies no clamp). -/
theorem C10_validate_signal_frame (cfg : Config) (s : Signal) :
    (validate_signal cfg s).2 = s
    ∧ (validate_signal cfg s).2.action = s.action
    ∧ (validate_signal cfg s).2.symbol = s.symbol
    ∧ (validate_signal cfg s).2.risk_percent = s.risk_percent
    ∧ (validate_signal cfg s).2.stop_loss = s.stop_loss
    ∧ (validate_signal cfg s).2.take_profit = s.take_profit := by
  have h := validate_signal_snd cfg s
  exact ⟨h, by rw [h], by rw [h], by rw [h], by rw [h], by rw [h]⟩

/-- Claim C3 counterexample: with a configuration whose default risk (5.0)
exceeds its maximum (2.0), a text with no risk label yields a risk_percent
of 5, above the configured maximum — so the extracted risk does not always
respect the maximum; and the bot.py extractor stores a matched risk value
with no cap at all. -/
theorem C3_risk_counterexample :
    (parse_gemini_response cfg52 "hello".data).risk_percent = 5
    ∧ ¬ (parse_gemini_response cfg52 "hello".data).risk_percent
        ≤ cfg52.max_risk_percent
    ∧ (bot_parse_signal "risk: 5%".data).risk_percent = 5 := by
  have h : reSearch riskMatchAt "hello".data = none := rfl
  have h2 : reSearch riskMatchAt "risk: 5%".data = some (['5'], []) := rfl
  have hd : digitsVal ['5'] = 5 := rfl
  have hd0 : digitsVal ([] : List Char) = 0 := rfl
  refine ⟨?_, ?_, ?_⟩
  · rw [parse_gemini_response_eq]
    simp [h, cfg52]
  · rw [parse_gemini_response_eq]
    simp only [h, Option.elim]
    show ¬ cfg52.default_risk_percent ≤ cfg52.max_risk_percent
    norm_num [cfg52]
  · rw [bot_parse_signal_eq]
    simp [h2, ratOfParts, hd, hd0]

/-- Claim C3 as amended: in `SignalParser.parse_gemini_response` a matched
risk value is capped at the configured maximum (so a labelled value above
the maximum comes out as the maximum), an absent risk label yields the
configured default uncapped, and therefore the extracted risk never exceeds
the maximum whenever the configured default is at most the configured
maximum; the standalone bot.py extractor stores a matched risk value with
no cap. -/
theorem C3_risk_cap_amended (cfg : Config) (t : List Char) :
    (∀ parts, reSearch riskMatchAt t = some parts →
      (parse_gemini_response cfg t).risk_percent
          = min (ratOfParts parts) cfg.max_risk_percent
        ∧ (parse_gemini_response cfg t).risk_percent ≤ cfg.max_risk_percent)
    ∧ (reSearch riskMatchAt t = none →
        (parse_gemini_response cfg t).risk_percent = cfg.default_risk_percent)
    ∧ (cfg.default_risk_percent ≤ cfg.max_risk_percent →
        (parse_gemini_response cfg t).risk_percent ≤ cfg.max_risk_percent)
    ∧ (∀ parts, reSearch riskMatchAt t = some parts →
        (bot_parse_signal t).risk_percent = ratOfParts parts) := by
  refine ⟨?_, ?_, ?_, ?_⟩
  · intro parts hp
    have he : (parse_gemini_response cfg t).risk_percent
        = min (ratOfParts parts) cfg.max_risk_percent := by
      rw [parse_gemini_response_eq]
      simp [hp]
    exact ⟨he, he ▸ min_le_right _ _⟩
  · intro hn
    rw [parse_gemini_response_eq]
    simp [hn]
  · intro hdm
    rw [parse_gemini_response_eq]
    cases hp : reSearch riskMatchAt t with
    | none => simp only [Option.elim]; exact hdm
    | some parts =>
      simp only [Option.elim]
      exact min_le_right (ratOfParts parts) cfg.max_risk_percent
  · intro parts hp
    rw [bot_parse_signal_eq]
    simp [hp]

/-- Claim C4 counterexample: the text "SL: 19001 TP: 1950 BUY" contains the
substrings "SL: 1900", "TP: 1950" and "BUY", yet extraction yields
stop_loss 19001 (the greedy digit run extends past "1900"), not 1900. -/
theorem C4_sl_tp_counterexample :
    containsTok "SL: 1900".data "SL: 19001 TP: 1950 BUY".data = true
    ∧ containsTok "TP: 1950".data "SL: 19001 TP: 1950 BUY".data = true
    ∧ containsTok "BUY".data "SL: 19001 TP: 1950 BUY".data = true
    ∧ (parse_gemini_response cfg12 "SL: 19001 TP: 1950 BUY".data).stop_loss
        = some 19001
    ∧ (parse_gemini_response cfg12 "SL: 19001 TP: 1950 BUY".data).stop_loss
        ≠ some 1900 := by
  have hsl : reSearch slMatchAt "SL: 19001 TP: 1950 BUY".data
      = some (['1', '9', '0', '0', '1'], []) := rfl
  have hd : digitsVal ['1', '9', '0', '0', '1'] = 19001 := rfl
  have hd0 : digitsVal ([] : List Char) = 0 := rfl
  have hv : (parse_gemini_response cfg12 "SL: 19001 TP: 1950 BUY".data).stop_loss
      = some 19001 := by
    rw [parse_gemini_response_eq]
    simp [hsl, ratOfParts, hd, hd0]
  refine ⟨rfl, rfl, rfl, hv, ?_⟩
  rw [hv]
  intro hcontra
  have h19 : (19001 : ℚ) = 1900 := by
    have := Option.some.inj hcontra
    exact this
  norm_num at h19

/-- Claim C4 as amended: stop_loss (take_profit) is the parsed value of the
leftmost position at which the stop-loss (take-profit) labelled-number
pattern matches — the label case-insensitively, the greedy digit run taken
whole — and unset exactly when no position matches; in particular the text
"BUY SL: 1900 TP: 1950" yields action BUY, stop_loss 1900.0, take_profit
1950.0 and a true valid flag. -/
theorem C4_sl_tp_first_match_amended (cfg : Config) (t : List Char) :
    ((parse_gemini_response cfg t).stop_loss = none ↔
      ∀ i < t.length, slMatchAt (t.drop i) = none)
    ∧ (∀ v : ℚ, (parse_gemini_response cfg t).stop_loss = some v ↔
        ∃ i, i < t.length
          ∧ (∃ p, slMatchAt (t.drop i) = some p ∧ ratOfParts p = v)
          ∧ ∀ j < i, slMatchAt (t.drop j) = none)
    ∧ ((parse_gemini_response cfg t).take_profit = none ↔
        ∀ i < t.length, tpMatchAt (t.drop i) = none)
    ∧ (∀ v : ℚ, (parse_gemini_response cfg t).take_profit = some v ↔
        ∃ i, i < t.length
          ∧ (∃ p, tpMatchAt (t.drop i) = some p ∧ ratOfParts p = v)
          ∧ ∀ j < i, tpMatchAt (t.drop j) = none)
    ∧ ((parse_gemini_response cfg12 "BUY SL: 1900 TP: 1950".data).action
          = some TradeAction.buy
        ∧ (parse_gemini_response cfg12 "BUY SL: 1900 TP: 1950".data).stop_loss
          = some 1900
        ∧ (parse_gemini_response cfg12 "BUY SL: 1900 TP: 1950".data).take_profit
          = some 1950
        ∧ (parse_gemini_response cfg12 "BUY SL: 1900 TP: 1950".data).valid
          = true) := by
  have hsl : (parse_gemini_response cfg t).stop_loss
      = (reSearch slMatchAt t).map ratOfParts := by rw [parse_gemini_response_eq]
  have htp : (parse_gemini_response cfg t).take_profit
      = (reSearch tpMatchAt t).map ratOfParts := by rw [parse_gemini_response_eq]
  refine ⟨?_, ?_, ?_, ?_, ?_⟩
  · rw [hsl, Option.map_eq_none', reSearch_eq_none_iff]
  · intro v
    rw [hsl, Option.map_eq_some']
    constructor
    · rintro ⟨p, hp, rfl⟩
      obtain ⟨i, hi, hm, hnone⟩ := (reSearch_eq_some_iff slMatchAt p t).mp hp
      exact ⟨i, hi, ⟨p, hm, rfl⟩, hnone⟩
    · rintro ⟨i, hi, ⟨p, hm, rfl⟩, hnone⟩
      exact ⟨p, (reSearch_eq_some_iff slMatchAt p t).mpr ⟨i, hi, hm, hnone⟩, rfl⟩
  · rw [htp, Option.map_eq_none', reSearch_eq_none_iff]
  · intro v
    rw [htp, Option.map_eq_some']
    constructor
    · rintro ⟨p, hp, rfl⟩
      obtain ⟨i, hi, hm, hnone⟩ := (reSearch_eq_some_iff tpMatchAt p t).mp hp
      exact ⟨i, hi, ⟨p, hm, rfl⟩, hnone⟩
    · rintro ⟨i, hi, ⟨p, hm, rfl⟩, hnone⟩
      exact ⟨p, (reSearch_eq_some_iff tpMatchAt p t).mpr ⟨i, hi, hm, hnone⟩, rfl⟩
  · have h1 : reSearch slMatchAt "BUY SL: 1900 TP: 1950".data
        = some (['1', '9', '0', '0'], []) := rfl
    have h2 : reSearch tpMatchAt "BUY SL: 1900 TP: 1950".data
        = some (['1', '9', '5', '0'], []) := rfl
    have h3 : actionOf "BUY SL: 1900 TP: 1950".data = some TradeAction.buy := rfl
    have hd1 : digitsVal ['1', '9', '0', '0'] = 1900 := rfl
    have hd2 : digitsVal ['1', '9', '5', '0'] = 1950 := rfl
    have hd0 : digitsVal ([] : List Char) = 0 := rfl
    rw [parse_gemini_response_eq]
    simp [h1, h2, h3, ratOfParts, hd1, hd2, hd0]

/-- Claim C5: for every signal and world, if the signal's valid flag is
false or the gateway is not connected, `execute_trade` returns failure at
once and issues no network request. -/
theorem C5_execute_trade_refusal (cfg : Config) (conn : Bool) (s : Signal)
    (w : HttpWorld) (h : s.valid = false ∨ conn = false) :
    execute_trade cfg conn s w = (false, []) := by
  rcases h with h | h
  · simp [execute_trade, h]
  · cases hv : s.valid <;> simp [execute_trade, h, hv]

/-- Witness for C5 at a concrete refusal: disconnected gateway, raising
world. -/
theorem C5_execute_trade_refusal_witness :
    execute_trade cfg12 false sigValid wRaise = (false, []) :=
  C5_execute_trade_refusal cfg12 false sigValid wRaise (Or.inr rfl)

/-- Claim C6: `get_account_balance` never raises — every failure mode
(gateway not connected, raised transport error, non-200 status, or a body
on which the JSON parse raises) yields the fallback balance, and a 200
response reporting a balance yields that balance.  (The fallback is the
hard-coded literal 10000.0 of the source, `default_test_balance`.) -/
theorem C6_get_account_balance_fallback (cfg : Config) (conn : Bool) (w : HttpWorld) :
    (conn = false → get_account_balance cfg conn w = default_test_balance)
    ∧ (w.accountGet = .raise →
        get_account_balance cfg true w = default_test_balance)
    ∧ (∀ st j, w.accountGet = .resp st j → st ≠ 200 →
        get_account_balance cfg true w = default_test_balance)
    ∧ (w.accountGet = .resp 200 none →
        get_account_balance cfg true w = default_test_balance)
    ∧ (∀ j b, w.accountGet = .resp 200 (some j) → j.balance = some b →
        get_account_balance cfg true w = b) := by
  refine ⟨?_, ?_, ?_, ?_, ?_⟩
  · intro h
    simp [get_account_balance, get_account_balance_body, h]
  · intro h
    simp [get_account_balance, get_account_balance_body, h]
  · intro st j h hst
    simp [get_account_balance, get_account_balance_body, h, hst]
  · intro h
    simp [get_account_balance, get_account_balance_body, h]
  · intro j b h hb
    simp [get_account_balance, get_account_balance_body, h, hb]

/-- Claim C7 counterexample: a connected gateway submitting a valid signal
receives status 204 — inside the 2xx range — and `execute_trade` returns
failure, so success does not hold for the whole 2xx range. -/
theorem C7_2xx_counterexample :
    sigValid.valid = true
    ∧ (200 ≤ 204 ∧ 204 < 300)
    ∧ (execute_trade cfg12 true sigValid w204).1 = false := by
  refine ⟨rfl, by norm_num, ?_⟩
  simp [execute_trade, sigValid, w204]

/-- Claim C7 as amended: for a valid signal on a connected gateway,
`execute_trade` returns success exactly when the order POST yields status
200 or 201 with a body the JSON parse accepts; every other status — 2xx or
not — and every transport failure yields failure (no exception escapes). -/
theorem C7_execute_trade_success_iff (cfg : Config) (s : Signal)
    (w : HttpWorld) (h : s.valid = true) :
    (execute_trade cfg true s w).1 = true ↔
      ∃ st j, w.orderPost = .resp st (some j) ∧ (st = 200 ∨ st = 201) := by
  cases ho : w.orderPost with
  | raise => simp [execute_trade, h, ho]
  | resp st j =>
    by_cases hst : st = 200 ∨ st = 201
    · cases j with
      | none => simp [execute_trade, h, ho, hst]
      | some body =>
        simp only [execute_trade, h, ho]
        simp [hst]
    · cases j with
      | none => simp [execute_trade, h, ho, hst]
      | some body => simp [execute_trade, h, ho, hst]

/-- Witness for C7 at a concrete success: status 201 with a parsable
body. -/
theorem C7_execute_trade_success_iff_witness :
    (execute_trade cfg12 true sigValid w201).1 = true :=
  (C7_execute_trade_success_iff cfg12 sigValid w201 rfl).mpr
    ⟨201, bodyEmpty, rfl, Or.inr rfl⟩

/-- Claim C8: the volume of `calculate_lot_size` is
max(floor(balance × risk_percent / 100 × 10), 1000) for non-negative
balance and risk — but the scaling constant 10 and the minimum 1000 are
hard-coded literals, not configured values: the result is independent of
the configuration object. -/
theorem C8_lot_size_formula (cfg cfg' : Config) (conn : Bool) (w : HttpWorld) (r : ℚ) :
    (0 ≤ get_account_balance cfg conn w → 0 ≤ r →
      calculate_lot_size cfg conn w r
        = max ⌊get_account_balance cfg conn w * r / 100 * 10⌋ 1000)
    ∧ calculate_lot_size cfg conn w r = calculate_lot_size cfg' conn w r := by
  constructor
  · intro hb hr
    unfold calculate_lot_size lot_volume pyInt
    have harg : get_account_balance cfg conn w * (r / 100) * 10
        = get_account_balance cfg conn w * r / 100 * 10 := by ring
    have hpos : 0 ≤ get_account_balance cfg conn w * (r / 100) * 10 := by positivity
    simp only []
    rw [if_pos hpos, harg]
  · rfl

/-- Claim C9: the extracted symbol is unset exactly when no position of the
text matches the symbol pattern; any extracted symbol is the upper-casing
of the letters captured at the leftmost matching position, and is a string
of three to ten uppercase ASCII letters. -/
theorem C9_symbol_invariant (cfg : Config) (t : List Char) :
    ((parse_gemini_response cfg t).symbol = none ↔
      ∀ i < t.length, symMatchAt (t.drop i) = none)
    ∧ (∀ u, (parse_gemini_response cfg t).symbol = some u ↔
        ∃ i, i < t.length
          ∧ (∃ ls, symMatchAt (t.drop i) = some ls ∧ u = ls.map pyUpperChar)
          ∧ ∀ j < i, symMatchAt (t.drop j) = none)
    ∧ (∀ u, (parse_gemini_response cfg t).symbol = some u →
        3 ≤ u.length ∧ u.length ≤ 10
          ∧ ∀ c ∈ u, 65 ≤ c.toNat ∧ c.toNat ≤ 90) := by
  have hsym : (parse_gemini_response cfg t).symbol
      = (reSearch symMatchAt t).map (List.map pyUpperChar) := by
    rw [parse_gemini_response_eq]
  refine ⟨?_, ?_, ?_⟩
  · rw [hsym, Option.map_eq_none', reSearch_eq_none_iff]
  · intro u
    rw [hsym, Option.map_eq_some']
    constructor
    · rintro ⟨ls, hls, rfl⟩
      obtain ⟨i, hi, hm, hnone⟩ := (reSearch_eq_some_iff symMatchAt ls t).mp hls
      exact ⟨i, hi, ⟨ls, hm, rfl⟩, hnone⟩
    · rintro ⟨i, hi, ⟨ls, hm, rfl⟩, hnone⟩
      exact ⟨ls, (reSearch_eq_some_iff symMatchAt ls t).mpr ⟨i, hi, hm, hnone⟩, rfl⟩
  · intro u hu
    rw [hsym] at hu
    obtain ⟨ls, hls, rfl⟩ := Option.map_eq_some'.mp hu
    obtain ⟨h3, h10, halpha⟩ := reSearch_symMatchAt_spec hls
    refine ⟨by simpa using h3, by simpa using h10, ?_⟩
    intro c hc
    obtain ⟨c0, hc0, rfl⟩ := List.mem_map.mp hc
    exact pyUpperChar_of_alpha (halpha c0 hc0)

end TradingBot
